import Mathlib

/-!
Verification of the VMF-to-PBR light-baking tool.

The Rust source is shallowly embedded in Lean 4.  IEEE `f32` values are
modelled as exact rationals (`ℚ`): every arithmetic step of the source is
mirrored over `ℚ`, which is exact wherever the source computes with exactly
representable values and without rounding-sensitive branches.  Transcendental
operations (the trigonometry of `angles_to_dir`) are kept as an abstract
parameter, and `f32::sqrt` is modelled by a rational square root that is exact
on perfect squares (the only places where its value is relied upon).
-/

namespace VmfPbr

/-! ## Modelling primitives for `f32` and Rust strings -/

/-- The value of `f32::MAX`, namely `(2 - 2⁻²³) · 2¹²⁷`, as an exact rational. -/
def F32MAX : ℚ := 2 ^ 128 - 2 ^ 104

/-- `EPSILON` from `tracer.rs`. -/
def EPSILON : ℚ := 1 / 1000

/-- Model of `f32::sqrt`: `sqrt (n/d) = sqrt (n·d) / d`, computed with the
integer square root.  Exact whenever `n·d` is a perfect square (in particular
on the concrete inputs of the tracer theorems); elsewhere a lower
approximation, used only where the result is afterwards clamped. -/
def ratSqrt (q : ℚ) : ℚ := (Nat.sqrt (q.num.toNat * q.den) : ℚ) / (q.den : ℚ)

/-- Model of `f32::clamp(lo, hi)` (no NaN in the rational model). -/
def fclamp (x lo hi : ℚ) : ℚ := if x < lo then lo else if hi < x then hi else x

/-- Model of `str::to_lowercase` (the materials handled here are ASCII). -/
def lowerStr (s : String) : String := ⟨s.data.map Char.toLower⟩

/-- Model of `str::contains` (substring test). -/
def containsStr (s pat : String) : Bool :=
  s.data.tails.any (fun t => pat.data.isPrefixOf t)

/-! ## `math.rs` -/

/-- `Vec3 = [f32; 3]`. -/
structure Vec3 where
  x : ℚ
  y : ℚ
  z : ℚ
deriving DecidableEq, Repr

/-- `math::sub`. -/
def sub (a b : Vec3) : Vec3 := ⟨a.x - b.x, a.y - b.y, a.z - b.z⟩

/-- `math::add`. -/
def add (a b : Vec3) : Vec3 := ⟨a.x + b.x, a.y + b.y, a.z + b.z⟩

/-- `math::mul` (scalar). -/
def mul (a : Vec3) (s : ℚ) : Vec3 := ⟨a.x * s, a.y * s, a.z * s⟩

/-- `math::dot`. -/
def dot (a b : Vec3) : ℚ := a.x * b.x + a.y * b.y + a.z * b.z

/-- `math::cross`. -/
def cross (a b : Vec3) : Vec3 :=
  ⟨a.y * b.z - a.z * b.y, a.z * b.x - a.x * b.z, a.x * b.y - a.y * b.x⟩

/-- `math::normalize` (via the modelled square root). -/
def normalize (a : Vec3) : Vec3 :=
  let len := ratSqrt (a.x * a.x + a.y * a.y + a.z * a.z)
  if len = 0 then ⟨0, 0, 0⟩ else ⟨a.x / len, a.y / len, a.z / len⟩

/-- `math::AABB`. -/
structure AABB where
  min : Vec3
  max : Vec3
  center : Vec3
deriving DecidableEq, Repr

/-- `AABB::new()`: empty sentinel `min = f32::MAX`, `max = f32::MIN`. -/
def AABB.new : AABB :=
  ⟨⟨F32MAX, F32MAX, F32MAX⟩, ⟨-F32MAX, -F32MAX, -F32MAX⟩, ⟨0, 0, 0⟩⟩

/-- `AABB::extend`. -/
def AABB.extend (b : AABB) (p : Vec3) : AABB :=
  let mn : Vec3 := ⟨Min.min b.min.x p.x, Min.min b.min.y p.y, Min.min b.min.z p.z⟩
  let mx : Vec3 := ⟨Max.max b.max.x p.x, Max.max b.max.y p.y, Max.max b.max.z p.z⟩
  ⟨mn, mx, ⟨(mn.x + mx.x) * (1/2), (mn.y + mx.y) * (1/2), (mn.z + mx.z) * (1/2)⟩⟩

/-! ## `processing/geometry.rs` -/

/-- `geometry::Plane`. -/
structure Plane where
  normal : Vec3
  dist : ℚ
  u_axis : String
  v_axis : String
  material : String
deriving DecidableEq, Repr

/-- `Plane::new`. -/
def Plane.new (normal : Vec3) (dist : ℚ) : Plane :=
  ⟨normal, dist, "", "", "default"⟩

/-- `geometry::ConvexBrush`. -/
structure ConvexBrush where
  id : Nat
  planes : List Plane
  _bounds : AABB
deriving DecidableEq, Repr

/-! ## `processing/tracer.rs` -/

/-- The per-axis slab loop of `ray_aabb_intersect` (the Rust `for i in 0..3`
over `(origin[i], dir[i], aabb.min[i], aabb.max[i])`), with early `false`
returns modelled by `none`. -/
def rayAabbAxes (tmin tmax : ℚ) : List (ℚ × ℚ × ℚ × ℚ) → Option (ℚ × ℚ)
  | [] => some (tmin, tmax)
  | (o, d, mn, mx) :: rest =>
    if |d| < 1 / 1000000 then
      if o < mn - EPSILON ∨ o > mx + EPSILON then none
      else rayAabbAxes tmin tmax rest
    else
      let ood := 1 / d
      let t1 := (mn - o) * ood
      let t2 := (mx - o) * ood
      let t1' := if t1 > t2 then t2 else t1
      let t2' := if t1 > t2 then t1 else t2
      let tmin' := max tmin t1'
      let tmax' := min tmax t2'
      if tmin' > tmax' then none
      else rayAabbAxes tmin' tmax' rest

/-- `tracer::ray_aabb_intersect`. -/
def ray_aabb_intersect (origin dir : Vec3) (max_dist : ℚ) (aabb : AABB) : Bool :=
  (rayAabbAxes 0 max_dist
    [(origin.x, dir.x, aabb.min.x, aabb.max.x),
     (origin.y, dir.y, aabb.min.y, aabb.max.y),
     (origin.z, dir.z, aabb.min.z, aabb.max.z)]).isSome

/-- The plane loop of `intersect_brush` (Rust `for (i, plane) in
planes.iter().enumerate()`), carrying `(t_near, t_far, enter_plane_idx)`;
early `return None` is modelled by `none`. -/
def intersectPlanes (origin dir : Vec3) :
    List Plane → Nat → ℚ → ℚ → Option Nat → Option (ℚ × ℚ × Option Nat)
  | [], _, t_near, t_far, enter => some (t_near, t_far, enter)
  | plane :: rest, i, t_near, t_far, enter =>
    let mat_lower := lowerStr plane.material
    if containsStr mat_lower "tools" && !containsStr mat_lower "nodraw"
        && !containsStr mat_lower "pbr_block" then
      intersectPlanes origin dir rest (i + 1) t_near t_far enter
    else
      let numer := -(dot plane.normal origin + plane.dist)
      let denom := dot plane.normal dir
      if |denom| < 1 / 1000000 then
        if numer < 0 then none
        else intersectPlanes origin dir rest (i + 1) t_near t_far enter
      else
        let t := numer / denom
        let st : ℚ × Option Nat :=
          if denom < 0 then (if t > t_near then (t, some i) else (t_near, enter))
          else (t_near, enter)
        let t_far' := if denom < 0 then t_far else (if t < t_far then t else t_far)
        if st.1 > t_far' ∨ t_far' < 0 then none
        else intersectPlanes origin dir rest (i + 1) st.1 t_far' st.2

/-- `tracer::intersect_brush`. -/
def intersect_brush (origin dir : Vec3) (max_dist : ℚ) (brush : ConvexBrush) :
    Option (ℚ × Nat) :=
  match intersectPlanes origin dir brush.planes 0 (-F32MAX) max_dist none with
  | none => none
  | some (t_near, t_far, enter) =>
    if t_near < t_far - EPSILON ∧ t_far > EPSILON ∧ t_near < max_dist then
      match enter with
      | some idx => some (t_near, idx)
      | none => some (0, 0)
    else none

/-- The brush loop of `is_occluded`, with the glass-material exemption at the
entry plane. -/
def isOccludedLoop (start dir : Vec3) (dist : ℚ) : List ConvexBrush → Bool
  | [] => false
  | brush :: rest =>
    if !ray_aabb_intersect start dir dist brush._bounds then
      isOccludedLoop start dir dist rest
    else
      match intersect_brush start dir dist brush with
      | some (_, plane_idx) =>
        let plane := brush.planes.getD plane_idx (Plane.new ⟨0, 0, 0⟩ 0)
        if containsStr (lowerStr plane.material) "glass" then
          isOccludedLoop start dir dist rest
        else true
      | none => isOccludedLoop start dir dist rest

/-- `tracer::is_occluded`. -/
def is_occluded (start endp : Vec3) (brushes : List ConvexBrush) : Bool :=
  let diff := sub endp start
  let dist_sq := dot diff diff
  let dist := ratSqrt dist_sq
  if dist < EPSILON then false
  else
    let dir : Vec3 := ⟨diff.x / dist, diff.y / dist, diff.z / dist⟩
    isOccludedLoop start dir dist brushes

/-! ## VMF data model (the `vmf_forge` collaborator's contract) -/

/-- A brush face as provided by the map parser collaborator. -/
structure Side where
  plane : String
  material : String
  u_axis : String
  v_axis : String
  dispinfo : Option Unit
deriving DecidableEq, Repr

/-- A brush solid as provided by the map parser collaborator. -/
structure Solid where
  id : Nat
  sides : List Side
deriving DecidableEq, Repr

/-- An entity: id, key/value map, optional brush solids. -/
structure Entity where
  id : Nat
  kv : List (String × String)
  solids : Option (List Solid)
deriving DecidableEq, Repr

/-- `Entity::get`: first binding of the key. -/
def Entity.get (e : Entity) (k : String) : Option String :=
  (e.kv.find? (fun p => p.1 == k)).map (fun p => p.2)

/-- `Entity::classname()`. -/
def Entity.classname (e : Entity) : Option String := e.get "classname"

/-- `Entity::targetname()`. -/
def Entity.targetname (e : Entity) : Option String := e.get "targetname"

/-- The slice of `VmfFile` used by the light extractor. -/
structure VmfFile where
  entities : List Entity
deriving DecidableEq, Repr

def defaultEntity : Entity := ⟨0, [], none⟩

/-! ## Numeric string scanning (model of Rust `str::parse`) -/

/-- Whitespace tokenizer: model of `str::split_whitespace` on the char list. -/
def splitWsAux (cur : List Char) : List Char → List (List Char)
  | [] => if cur.isEmpty then [] else [cur.reverse]
  | c :: rest =>
    if c.isWhitespace then
      if cur.isEmpty then splitWsAux [] rest else cur.reverse :: splitWsAux [] rest
    else splitWsAux (c :: cur) rest

def splitWs (cs : List Char) : List (List Char) := splitWsAux [] cs

/-- Scanned pieces of a decimal literal: sign, integer part, fraction digits
value and count, exponent sign and value. -/
structure NumParts where
  neg : Bool
  ip : Nat
  fp : Nat
  flen : Nat
  eneg : Bool
  ev : Nat
deriving DecidableEq, Repr

def digitsVal (l : List Char) : Nat :=
  l.foldl (fun a c => a * 10 + (c.toNat - 48)) 0

/-- Scanner for a finite decimal literal `[+-]?d*(.d*)?([eE][+-]?d+)?` with at
least one mantissa digit: the grammar of Rust `f32` parsing restricted to
finite decimals (`inf`/`NaN` spellings deliberately fall outside the rational
model). -/
def scanNum (cs : List Char) : Option NumParts :=
  let sgn : Bool × List Char :=
    match cs with
    | '-' :: r => (true, r)
    | '+' :: r => (false, r)
    | _ => (false, cs)
  let ipd := sgn.2.takeWhile Char.isDigit
  let cs2 := sgn.2.dropWhile Char.isDigit
  let fr : List Char × List Char :=
    match cs2 with
    | '.' :: r => (r.takeWhile Char.isDigit, r.dropWhile Char.isDigit)
    | _ => ([], cs2)
  if ipd.isEmpty && fr.1.isEmpty then none
  else
    match fr.2 with
    | [] => some ⟨sgn.1, digitsVal ipd, digitsVal fr.1, fr.1.length, false, 0⟩
    | e :: r =>
      if e == 'e' || e == 'E' then
        let esgn : Bool × List Char :=
          match r with
          | '-' :: r2 => (true, r2)
          | '+' :: r2 => (false, r2)
          | _ => (false, r)
        let edd := esgn.2.takeWhile Char.isDigit
        let r2 := esgn.2.dropWhile Char.isDigit
        if edd.isEmpty || !r2.isEmpty then none
        else some ⟨sgn.1, digitsVal ipd, digitsVal fr.1, fr.1.length, esgn.1, digitsVal edd⟩
      else none

/-- Exact rational value of a scanned decimal literal. -/
def ratOfParts (p : NumParts) : ℚ :=
  (if p.neg then -1 else 1) * ((p.ip : ℚ) + (p.fp : ℚ) / 10 ^ p.flen)
    * (10 : ℚ) ^ (if p.eneg then -(p.ev : ℤ) else (p.ev : ℤ))

/-- Model of `str::parse::<f32>` over the rational model. -/
def parseF32 (s : String) : Option ℚ := (scanNum s.data).map ratOfParts

/-- Model of `str::parse::<u32>` (digits only, range-checked). -/
def parseU32 (s : String) : Option Nat :=
  if !s.data.isEmpty && s.data.all Char.isDigit then
    let v := digitsVal s.data
    if v < 2 ^ 32 then some v else none
  else none

/-- `math::parse_vector`. -/
def parse_vector (s : String) : Vec3 :=
  let parts := (splitWs s.data).filterMap (fun cs => (scanNum cs).map ratOfParts)
  if 3 ≤ parts.length then ⟨parts.getD 0 0, parts.getD 1 0, parts.getD 2 0⟩
  else ⟨0, 0, 0⟩

/-! ## `processing/utils.rs` -/

/-- Splits out the contents of each `(...)` group, as the plane-points regex
does. -/
def parenGroupsAux (inGroup : Bool) (cur : List Char) : List Char → List (List Char)
  | [] => []
  | c :: rest =>
    if inGroup then
      if c == ')' then cur.reverse :: parenGroupsAux false [] rest
      else parenGroupsAux true (c :: cur) rest
    else
      if c == '(' then parenGroupsAux true [] rest
      else parenGroupsAux false cur rest

def parenGroups (cs : List Char) : List (List Char) := parenGroupsAux false [] cs

/-- Characters admitted by the plane-points regex class `[\d\.\-eE]`. -/
def numChar (c : Char) : Bool :=
  c.isDigit || c == '.' || c == '-' || c == 'e' || c == 'E'

/-- A parenthesised group matching the regex: exactly three whitespace-separated
tokens over the admitted character class. -/
def groupMatch (g : List Char) : Option (List Char × List Char × List Char) :=
  match splitWs g with
  | [a, b, c] =>
    if a.all numChar && b.all numChar && c.all numChar then some (a, b, c) else none
  | _ => none

/-- Parses each matched group; a parse failure of a matched token aborts the
whole function (the `.ok()?` in the source). -/
def parsePoints : List (List Char × List Char × List Char) → Option (List Vec3)
  | [] => some []
  | (a, b, c) :: rest =>
    match (scanNum a).map ratOfParts, (scanNum b).map ratOfParts,
        (scanNum c).map ratOfParts with
    | some x, some y, some z => (parsePoints rest).map (fun l => ⟨x, y, z⟩ :: l)
    | _, _, _ => none

/-- Model of `utils::parse_plane_points`: the regex
`\(([\d\.\-eE]+)\s+([\d\.\-eE]+)\s+([\d\.\-eE]+)\)` applied per parenthesised
group; exactly three point matches are required. -/
def parse_plane_points (plane_str : String) : Option (Vec3 × Vec3 × Vec3) :=
  match parsePoints ((parenGroups plane_str.data).filterMap groupMatch) with
  | some [p0, p1, p2] => some (p0, p1, p2)
  | _ => none

/-- `utils::calc_face_normal`. -/
def calc_face_normal (p0 p1 p2 : Vec3) : Vec3 :=
  normalize (cross (sub p1 p0) (sub p2 p0))

/-- `geometry::get_entity_aabb`. -/
def get_entity_aabb (ent : Entity) : Option AABB :=
  match ent.solids with
  | none => none
  | some solids =>
    if solids.isEmpty then none
    else
      let st := solids.foldl (fun (st : AABB × Bool) solid =>
        solid.sides.foldl (fun (st : AABB × Bool) side =>
          match parse_plane_points side.plane with
          | some (p0, p1, p2) => (((st.1.extend p0).extend p1).extend p2, true)
          | none => st) st) (AABB.new, false)
      if st.2 then some st.1 else none

/-! ## `types.rs` -/

/-- `types::BlockerDef` (flag is `u8`). -/
structure BlockerDef where
  width : ℚ
  height : ℚ
  depth : ℚ
  pos : Option Vec3
  flag : Nat
deriving DecidableEq, Repr

/-- `types::LightType`. -/
inductive LightType where
  | point
  | spot (direction : Vec3) (inner_angle outer_angle exponent : ℚ)
  | rect (direction : Vec3) (width height : ℚ) (bidirectional : Bool)
deriving DecidableEq, Repr

/-- `types::LightDef` (`blockers` is the two-slot array). -/
structure LightDef where
  debug_id : String
  is_named_light : Bool
  light_type : LightType
  pos : Vec3
  color : Vec3
  intensity : ℚ
  range : ℚ
  attenuation_k : ℚ
  fifty_percent_distance : Option ℚ
  blockers : Option BlockerDef × Option BlockerDef
  initially_dark : Bool
deriving DecidableEq, Repr

def defaultLight : LightDef :=
  ⟨"", false, .point, ⟨0, 0, 0⟩, ⟨0, 0, 0⟩, 0, 0, 0, none, (none, none), false⟩

instance : Inhabited LightDef := ⟨defaultLight⟩

/-! ## `parser.rs` -/

def PBR_INTENSITY_MULT : ℚ := 1

def MAX_HDR_OVERBRIGHT : ℚ := 16

def LIGHT_CUTOFF_THRESHOLD : ℚ := 1 / 5

/-- `parser::parse_color_intensity`. -/
def parse_color_intensity (s : String) : Vec3 × ℚ :=
  let parts := (splitWs s.data).filterMap (fun cs => (scanNum cs).map ratOfParts)
  if 4 ≤ parts.length then
    (⟨parts.getD 0 0 / 255, parts.getD 1 0 / 255, parts.getD 2 0 / 255⟩, parts.getD 3 0)
  else if parts.length = 3 then
    (⟨parts.getD 0 0 / 255, parts.getD 1 0 / 255, parts.getD 2 0 / 255⟩, 200)
  else (⟨1, 1, 1⟩, 200)

/-- `parser::sanitize_name`: strip `.`, `-` and spaces. -/
def sanitize_name (s : String) : String :=
  ⟨s.data.filter (fun c => !(c == '.' || c == '-' || c == ' '))⟩

/-- Abstract model of the trig core of `angles_to_dir`: given final pitch and
yaw in degrees it stands for `(cos p · cos y, cos p · sin y, sin p)` after the
degree→radian conversion.  Transcendental, hence kept as a parameter; no claim
depends on its values. -/
def TrigFun := ℚ → ℚ → Vec3

/-- `parser::angles_to_dir` (parsing, pitch override/negation and the `clean`
snap are embedded; the trig core is the abstract parameter). -/
def angles_to_dir (trig : TrigFun) (angles_str : String)
    (pitch_override : Option String) : Vec3 :=
  let parts := parse_vector angles_str
  let yaw := parts.y
  let pitch := match pitch_override with
    | some p =>
      match parseF32 p with
      | some pv => pv
      | none => parts.x
    | none => parts.x * (-1)
  let v := trig pitch yaw
  let clean := fun (t : ℚ) => if |t| < 1 / 10000 then 0 else t
  ⟨clean v.x, clean v.y, clean v.z⟩

/-- The `entity_map` pre-pass of `extract_lights`: targetname → entity index,
later insertions overwriting earlier ones (`HashMap::insert`). -/
def insertAssoc (m : List (String × Nat)) (k : String) (v : Nat) :
    List (String × Nat) :=
  if m.any (fun p => p.1 == k) then m.map (fun p => if p.1 == k then (k, v) else p)
  else m ++ [(k, v)]

def buildEntityMap : List Entity → Nat → List (String × Nat) → List (String × Nat)
  | [], _, m => m
  | e :: rest, i, m =>
    buildEntityMap rest (i + 1)
      (match e.targetname with
       | some n => insertAssoc m n i
       | none => m)

def entityMapFind (vmf : VmfFile) (name : String) : Option Nat :=
  ((buildEntityMap vmf.entities 0 []).find? (fun p => p.1 == name)).map (fun p => p.2)

/-- The `process_blocker` closure of `extract_lights`. -/
def process_blocker (vmf : VmfFile) (light_type : LightType) (ent : Entity)
    (key : String) : Option BlockerDef :=
  match ent.get key with
  | none => none
  | some name =>
    match entityMapFind vmf name with
    | none => none
    | some idx =>
      match get_entity_aabb (vmf.entities.getD idx defaultEntity) with
      | none => none
      | some aabb =>
        let flag : Nat :=
          match light_type with
          | .rect _ _ _ true => 2
          | _ => 1
        some ⟨aabb.max.x - aabb.min.x, aabb.max.y - aabb.min.y,
          aabb.max.z - aabb.min.z, some aabb.center, flag⟩

/-- The body of the `extract_lights` loop for an accepted entity: phases 1-4 of
the source (basic properties, physics/attenuation, overrides/blockers,
finalization). -/
def buildLight (trig : TrigFun) (vmf : VmfFile) (ent : Entity)
    (classname : String) : LightDef :=
  let origin_vec := parse_vector ((ent.get "origin").getD "0 0 0")
  let light_val := (ent.get "_light").getD "255 255 255 200"
  let ci := parse_color_intensity light_val
  let intensity0 := ci.2 / MAX_HDR_OVERBRIGHT * PBR_INTENSITY_MULT
  let intensity := match ent.get "pbr_intensity_scale" with
    | some scale => intensity0 * ((parseF32 scale).getD 1)
    | none => intensity0
  let color := match ent.get "pbr_color_override" with
    | some col_str =>
      if col_str ≠ "-1 -1 -1" then (parse_color_intensity col_str).1 else ci.1
    | none => ci.1
  let range_override := (ent.get "pbr_range_override").bind parseF32
  let fifty_percent_val := match (ent.get "_fifty_percent_distance").bind parseF32 with
    | some v => if 1 / 10 < v then some v else none
    | none => none
  let branch : Vec3 × ℚ × ℚ × ℚ × LightType :=
    if classname == "func_ggx_area" then
      let dir := angles_to_dir trig ((ent.get "angles").getD "0 0 0") none
      let awh : Vec3 × ℚ × ℚ :=
        match get_entity_aabb ent with
        | some aabb =>
          let extent := sub aabb.max aabb.min
          let fwd := normalize dir
          let up_base : Vec3 := if |fwd.z| > 99 / 100 then ⟨1, 0, 0⟩ else ⟨0, 0, 1⟩
          let right_vec := normalize (cross fwd up_base)
          let up_vec := normalize (cross right_vec fwd)
          let width := |dot extent ⟨|right_vec.x|, |right_vec.y|, |right_vec.z|⟩|
          let height := |dot extent ⟨|up_vec.x|, |up_vec.y|, |up_vec.z|⟩|
          let width := if width < 1 then 1 else width
          let height := if height < 1 then 1 else height
          (aabb.center, width, height)
        | none => (origin_vec, 0, 0)
      let q : ℚ := 1
      let ratio : ℚ := 0 + 100 * 0 + 10000 * q
      let src_energy := if ratio > 1 / 1000 then intensity * ratio else 0
      let math_c : ℚ := 1
      let shader_intensity0 := src_energy / math_c
      let shader_k := q / math_c
      let shader_intensity := shader_intensity0 * (1 / 4)
      let range :=
        if shader_k > 1 / 100000000 then
          let val := (shader_intensity / LIGHT_CUTOFF_THRESHOLD - 1) / shader_k
          if val > 0 then ratSqrt val else 1000
        else 10000
      let bidirectional := match ent.get "pbr_bidirectional" with
        | some s => s == "1"
        | none => false
      (awh.1, shader_intensity, shader_k, range,
        LightType.rect dir awh.2.1 awh.2.2 bidirectional)
    else
      let light_type : LightType :=
        if classname == "light_spot" then
          let dir := angles_to_dir trig ((ent.get "angles").getD "0 0 0")
            (ent.get "pitch")
          let inner := ((ent.get "_inner_cone").bind parseF32).getD 30
          let outer := ((ent.get "_cone").bind parseF32).getD 45
          let spot_expo := ((ent.get "_exponent").bind parseF32).getD 1
          let inner := if inner > outer then outer else inner
          LightType.spot dir inner outer spot_expo
        else LightType.point
      let c0 := ((ent.get "_constant_attn").bind parseF32).getD 0
      let l := ((ent.get "_linear_attn").bind parseF32).getD 0
      let q := ((ent.get "_quadratic_attn").bind parseF32).getD 0
      match fifty_percent_val with
      | some dist50 =>
        let shader_k := 1 / (dist50 * dist50)
        let shader_intensity := intensity
        let dist0 := ((ent.get "_zero_percent_distance").bind parseF32).getD (dist50 * 5)
        (origin_vec, shader_intensity, shader_k, dist0, light_type)
      | none =>
        let c := if c0 < 1 / 10000 ∧ l < 1 / 10000 ∧ q < 1 / 10000 then 1 else c0
        let ratio := c + 100 * l + 10000 * q
        let src_energy := if ratio > 1 / 1000 then intensity * ratio else 0
        let math_c := if c < 1 then 1 else c
        let shader_intensity := src_energy / math_c
        let shader_k := q / math_c
        let range :=
          if shader_k > 1 / 100000000 then
            let val := (shader_intensity / LIGHT_CUTOFF_THRESHOLD - 1) / shader_k
            if val > 0 then ratSqrt val else 1000
          else 20000
        (origin_vec, shader_intensity, shader_k, range, light_type)
  let range1 := match range_override with
    | some r => if r > 1 / 10 then r else branch.2.2.2.1
    | none => branch.2.2.2.1
  let spawnflags := ((ent.get "spawnflags").bind parseU32).getD 0
  { debug_id := match ent.targetname with
      | some s => sanitize_name s
      | none => toString ent.id
    is_named_light := (ent.targetname).isSome
    light_type := branch.2.2.2.2
    pos := branch.1
    color := color
    intensity := branch.2.1
    range := fclamp range1 64 65000
    attenuation_k := branch.2.2.1
    fifty_percent_distance := fifty_percent_val
    blockers := (process_blocker vmf branch.2.2.2.2 ent "pbr_blocker_name",
                 process_blocker vmf branch.2.2.2.2 ent "pbr_blocker_name_2")
    initially_dark := Nat.land spawnflags 1 != 0 }

/-- The per-entity step of `extract_lights`: class filter and the
`pbr_enabled` skip. -/
def processEntity (trig : TrigFun) (vmf : VmfFile) (ent : Entity) :
    Option LightDef :=
  let classname := (ent.classname).getD ""
  if classname == "light" || classname == "light_spot"
      || classname == "func_ggx_area" then
    if classname != "func_ggx_area" && ((ent.get "pbr_enabled").getD "0") == "0" then
      none
    else some (buildLight trig vmf ent classname)
  else none

def extractLoop (trig : TrigFun) (vmf : VmfFile) : List Entity → List LightDef
  | [] => []
  | ent :: rest =>
    match processEntity trig vmf ent with
    | some l => l :: extractLoop trig vmf rest
    | none => extractLoop trig vmf rest

/-- `parser::extract_lights` (the `Ok` payload; the source function is
infallible apart from the `anyhow` wrapper). -/
def extract_lights (trig : TrigFun) (vmf : VmfFile) : List LightDef :=
  extractLoop trig vmf vmf.entities

/-! ## `processing/mod.rs`: per-surface light selection

`generator::LUT_WIDTH` is 8.  Scores are `f32` in the source, with `f32::MAX`
used as the forced-include sentinel; `calculate_score` always returns a finite
value far below `f32::MAX`, so scores are modelled by `FScore`: a finite
rational or the sentinel `inf`, the latter strictly above every finite score
exactly as `f32::MAX` compares in the source.  `calculate_score` itself
(distance, shape and occlusion sampling for a fixed surface and collision
world) enters the selection only through the per-light value it returns, so it
is abstracted as a function `score : LightDef → ℚ`. -/

def LUT_WIDTH : Nat := 8

/-- A selection score: finite value or the `f32::MAX` forced sentinel. -/
inductive FScore where
  | val (q : ℚ)
  | inf
deriving DecidableEq, Repr

/-- Strict `<` on scores (`inf` above every finite value). -/
def FScore.flt : FScore → FScore → Bool
  | .val a, .val b => a < b
  | .val _, .inf => true
  | .inf, _ => false

/-- `>=` on scores. -/
def FScore.fge (a b : FScore) : Bool := !FScore.flt a b

/-- The scoring loop of `process_map_pipeline` (lines building
`scored_lights`): exclusion, forced inclusion with the sentinel, and the
`score > 0.0` filter; entries are `(index, score)` pairs. -/
def scoredLightsLoop (excl force : List String) (score : LightDef → ℚ) :
    Nat → List LightDef → List (Nat × FScore)
  | _, [] => []
  | idx, light :: rest =>
    if light.is_named_light && excl.contains light.debug_id then
      scoredLightsLoop excl force score (idx + 1) rest
    else if light.is_named_light && force.contains light.debug_id then
      (idx, FScore.inf) :: scoredLightsLoop excl force score (idx + 1) rest
    else if 0 < score light then
      (idx, FScore.val (score light)) :: scoredLightsLoop excl force score (idx + 1) rest
    else
      scoredLightsLoop excl force score (idx + 1) rest

/-- `max_score`: fold of `f32::max` over the finite scores, seeded with `0.0`. -/
def maxFiniteScore (l : List (Nat × FScore)) : ℚ :=
  l.foldl (fun acc p =>
    match p.2 with
    | .val q => Max.max acc q
    | .inf => acc) 0

def normalizeEntry (m : ℚ) (p : Nat × FScore) : Nat × FScore :=
  match p.2 with
  | .val q => (p.1, .val (q / m))
  | .inf => p

/-- The normalization pass: divide every finite score by `max_score` when the
latter is positive. -/
def normalizeScores (l : List (Nat × FScore)) : List (Nat × FScore) :=
  let m := maxFiniteScore l
  if 0 < m then l.map (normalizeEntry m) else l

/-- Stable insertion for `sortBy`: `x` is placed before the first element not
strictly preceding it. -/
def insertBy (lt : α → α → Bool) (x : α) : List α → List α
  | [] => [x]
  | y :: ys => if lt y x then y :: insertBy lt x ys else x :: y :: ys

/-- Stable sort with strict-precedence comparator `lt`: the model of Rust's
(stable) `slice::sort_by` / `sort_by_key`. -/
def sortBy (lt : α → α → Bool) : List α → List α
  | [] => []
  | x :: xs => insertBy lt x (sortBy lt xs)

/-- Comparator of `sort_by(|a, b| b.1.partial_cmp(&a.1))`: `a` strictly
precedes `b` iff `b`'s score is strictly smaller. -/
def scoreDescLt (a b : Nat × FScore) : Bool := FScore.flt b.2 a.2

/-- `all_lights[idx]` (indices produced by `enumerate` are always in range). -/
def lightAt (all : List LightDef) (i : Nat) : LightDef := all.getD i defaultLight

/-- Comparator of `sort_by_key(|(idx, _)| !all_lights[*idx].is_named_light)`:
`a` strictly precedes `b` iff `a` is named and `b` is not. -/
def namedKeyLt (all : List LightDef) (a b : Nat × FScore) : Bool :=
  (lightAt all a.1).is_named_light && !(lightAt all b.1).is_named_light

/-- The partition predicate `*s >= f32::MAX || *s >= min_score`. -/
def acceptLight (minScore : ℚ) (p : Nat × FScore) : Bool :=
  FScore.fge p.2 FScore.inf || FScore.fge p.2 (FScore.val minScore)

/-- `min_score` key of the surface entity, default `0.10`. -/
def minScoreOf (ent : Entity) : ℚ :=
  ((ent.get "min_score").bind parseF32).getD (1 / 10)

/-- `scored_lights` after normalization and the descending stable sort. -/
def scoredSorted (all : List LightDef) (excl force : List String)
    (score : LightDef → ℚ) : List (Nat × FScore) :=
  sortBy scoreDescLt (normalizeScores (scoredLightsLoop excl force score 0 all))

/-- Accepted/rejected `(index, score)` lists: partition by the min-score test,
overflow past `LUT_WIDTH` moved to rejected, accepted stably re-sorted to put
named lights first. -/
def selectCore (all : List LightDef) (excl force : List String)
    (score : LightDef → ℚ) (minScore : ℚ) :
    List (Nat × FScore) × List (Nat × FScore) :=
  let pr := (scoredSorted all excl force score).partition (acceptLight minScore)
  let ar :=
    if LUT_WIDTH < pr.1.length then (pr.1.take LUT_WIDTH, pr.2 ++ pr.1.drop LUT_WIDTH)
    else pr
  (sortBy (namedKeyLt all) ar.1, ar.2)

/-- `(selected_lights, rejected_lights)` of the cluster: the `(index, score)`
lists resolved to `(LightDef, score)` pairs. -/
def selectClusterLights (all : List LightDef) (excl force : List String)
    (score : LightDef → ℚ) (minScore : ℚ) :
    List (LightDef × FScore) × List (LightDef × FScore) :=
  ((selectCore all excl force score minScore).1.map (fun p => (lightAt all p.1, p.2)),
   (selectCore all excl force score minScore).2.map (fun p => (lightAt all p.1, p.2)))

/-! ## Concrete instances for evaluation -/

/-- The six-plane cube from `-10` to `10` of the tracer tests: outward unit
normals, `dist = -10` on every face, bounds grown exactly as in
`create_test_cube(10.0)`. -/
def testCube : ConvexBrush :=
  { id := 0
    planes := [Plane.new ⟨1, 0, 0⟩ (-10), Plane.new ⟨-1, 0, 0⟩ (-10),
               Plane.new ⟨0, 1, 0⟩ (-10), Plane.new ⟨0, -1, 0⟩ (-10),
               Plane.new ⟨0, 0, 1⟩ (-10), Plane.new ⟨0, 0, -1⟩ (-10)]
    _bounds := (AABB.new.extend ⟨-10, -10, -10⟩).extend ⟨10, 10, 10⟩ }

/-- Nine identical unnamed lights (capacity-overflow scenario of §8). -/
def nineLights : List LightDef := List.replicate 9 defaultLight

/-- A scoring function valuing every light at `1`. -/
def unitScore : LightDef → ℚ := fun _ => 1

/-- An unnamed light. -/
def lightUnnamed : LightDef := { defaultLight with debug_id := "u" }

/-- A named light. -/
def lightNamed : LightDef := { defaultLight with debug_id := "n", is_named_light := true }

def cexLights : List LightDef := [lightUnnamed, lightNamed]

/-- A scoring function giving the unnamed light a strictly higher score. -/
def cexScore : LightDef → ℚ := fun l => if l.is_named_light then 2 else 10

/-- A degenerate trig model (claims are independent of the trig core). -/
def trigZero : TrigFun := fun _ _ => ⟨0, 0, 0⟩

def entLightOn : Entity := ⟨7, [("classname", "light"), ("pbr_enabled", "1")], none⟩

def vmfLightOn : VmfFile := ⟨[entLightOn]⟩

/-- A `light` entity whose `pbr_enabled` is the string `"2"` — neither `"1"`
nor `"0"`. -/
def entLightTwo : Entity := ⟨3, [("classname", "light"), ("pbr_enabled", "2")], none⟩

def vmfLightTwo : VmfFile := ⟨[entLightTwo]⟩

/-- A `light` entity with no `pbr_enabled` key. -/
def entLightOff : Entity := ⟨4, [("classname", "light")], none⟩

def entArea : Entity := ⟨5, [("classname", "func_ggx_area")], none⟩

def vmfMixed : VmfFile := ⟨[entLightOff, entArea]⟩

def vmfOff : VmfFile := ⟨[entLightOff]⟩

/-! ## Generic facts about the stable sort model -/

theorem mem_insertBy {α} {lt : α → α → Bool} {x y : α} {l : List α} :
    y ∈ insertBy lt x l ↔ y = x ∨ y ∈ l := by
  induction l with
  | nil => simp [insertBy]
  | cons z zs ih =>
    cases hlt : lt z x
    · simp [insertBy, hlt, ih]
    · simp [insertBy, hlt, ih]
      tauto

theorem length_insertBy {α} (lt : α → α → Bool) (x : α) (l : List α) :
    (insertBy lt x l).length = l.length + 1 := by
  induction l with
  | nil => simp [insertBy]
  | cons z zs ih =>
    cases hlt : lt z x <;> simp [insertBy, hlt, ih]

theorem mem_sortBy {α} {lt : α → α → Bool} {y : α} {l : List α} :
    y ∈ sortBy lt l ↔ y ∈ l := by
  induction l with
  | nil => simp [sortBy]
  | cons x xs ih => simp [sortBy, mem_insertBy, ih]

theorem length_sortBy {α} (lt : α → α → Bool) (l : List α) :
    (sortBy lt l).length = l.length := by
  induction l with
  | nil => simp [sortBy]
  | cons x xs ih => simp [sortBy, length_insertBy, ih]

/-- Stability and sortedness of `insertBy` in one invariant: pairs of the
output are weakly ordered by the comparator, and ties keep the original-order
relation `Q`. -/
theorem pairwise_insertBy {α} {lt : α → α → Bool} {Q : α → α → Prop}
    (hasym : ∀ a b, lt a b = true → lt b a = false)
    (hntrans : ∀ a b c, lt a b = false → lt b c = false → lt a c = false)
    {x : α} {l : List α}
    (hl : l.Pairwise (fun a b => lt b a = false ∧ (lt a b = false → Q a b)))
    (hx : ∀ y ∈ l, Q x y) :
    (insertBy lt x l).Pairwise
      (fun a b => lt b a = false ∧ (lt a b = false → Q a b)) := by
  induction l with
  | nil => simp [insertBy]
  | cons y ys ih =>
    rcases List.pairwise_cons.mp hl with ⟨hy, hys⟩
    cases hlt : lt y x with
    | true =>
      simp only [insertBy, hlt, if_pos]
      refine List.pairwise_cons.mpr ⟨?_, ih hys (fun z hz => hx z (List.mem_cons_of_mem _ hz))⟩
      intro z hz
      rcases mem_insertBy.mp hz with rfl | hz'
      · exact ⟨hasym _ _ hlt, fun h => absurd hlt (by simp [h])⟩
      · exact hy z hz'
    | false =>
      simp only [insertBy, hlt]
      refine List.pairwise_cons.mpr ⟨?_, hl⟩
      intro z hz
      rcases List.mem_cons.mp hz with rfl | hz'
      · exact ⟨hlt, fun _ => hx z (List.mem_cons_self _ _)⟩
      · have hzy := (hy z hz').1
        exact ⟨hntrans _ _ _ hzy hlt, fun _ => hx z (List.mem_cons_of_mem _ hz')⟩

/-- Stability and sortedness of the sort model: if the input is pairwise `Q`
(for stability, `Q` is the pre-sort order relation), the output is weakly
sorted by the comparator and ties keep `Q`. -/
theorem pairwise_sortBy {α} {lt : α → α → Bool} {Q : α → α → Prop}
    (hasym : ∀ a b, lt a b = true → lt b a = false)
    (hntrans : ∀ a b c, lt a b = false → lt b c = false → lt a c = false)
    {l : List α} (hl : l.Pairwise Q) :
    (sortBy lt l).Pairwise
      (fun a b => lt b a = false ∧ (lt a b = false → Q a b)) := by
  induction l with
  | nil => simp [sortBy]
  | cons x xs ih =>
    rcases List.pairwise_cons.mp hl with ⟨hx, hxs⟩
    exact pairwise_insertBy hasym hntrans (ih hxs)
      (fun y hy => hx y (mem_sortBy.mp hy))

/-! ## Claim C2: cluster cap and overflow routing -/

/-- C2.  In the per-surface selection of `process_map_pipeline`, the accepted
light list never exceeds `LUT_WIDTH = 8` entries, and every scored candidate
that passed the min-score acceptance test but is not among the accepted
entries (i.e. was dropped by the capacity cap) lands in the rejected list. -/
theorem C2_cluster_cap (all : List LightDef) (excl force : List String)
    (score : LightDef → ℚ) (minScore : ℚ) :
    (selectClusterLights all excl force score minScore).1.length ≤ LUT_WIDTH ∧
    ∀ p ∈ scoredSorted all excl force score,
      acceptLight minScore p = true →
      p ∉ (selectCore all excl force score minScore).1 →
      p ∈ (selectCore all excl force score minScore).2 ∧
        (lightAt all p.1, p.2) ∈ (selectClusterLights all excl force score minScore).2 := by
  constructor
  · simp only [selectClusterLights, List.length_map, selectCore,
      List.partition_eq_filter_filter]
    by_cases hcap :
        LUT_WIDTH < ((scoredSorted all excl force score).filter (acceptLight minScore)).length
    · simp only [hcap, if_pos, length_sortBy, List.length_take]
      exact min_le_left _ _
    · simp only [hcap, if_neg, not_false_eq_true, length_sortBy]
      exact Nat.le_of_not_lt hcap
  · intro p hp hacc hnot
    suffices h : p ∈ (selectCore all excl force score minScore).2 by
      exact ⟨h, List.mem_map_of_mem _ h⟩
    simp only [selectCore, List.partition_eq_filter_filter] at hnot ⊢
    have hpf : p ∈ (scoredSorted all excl force score).filter (acceptLight minScore) :=
      List.mem_filter.mpr ⟨hp, hacc⟩
    by_cases hcap :
        LUT_WIDTH < ((scoredSorted all excl force score).filter (acceptLight minScore)).length
    · simp only [hcap, if_pos] at hnot ⊢
      rw [mem_sortBy] at hnot
      have := (List.take_append_drop LUT_WIDTH
        ((scoredSorted all excl force score).filter (acceptLight minScore))) ▸ hpf
      rcases List.mem_append.mp this with h | h
      · exact absurd h hnot
      · exact List.mem_append.mpr (Or.inr h)
    · simp only [hcap, if_neg, not_false_eq_true] at hnot
      rw [mem_sortBy] at hnot
      exact absurd hpf hnot

theorem lightAt_nineLights (i : Nat) : lightAt nineLights i = defaultLight := by
  have : ∀ (n i : Nat), (List.replicate n defaultLight).getD i defaultLight = defaultLight := by
    intro n
    induction n with
    | zero => intro i; simp [List.getD]
    | succ m ih =>
      intro i
      cases i with
      | zero => simp [List.replicate]
      | succ j =>
        simp only [List.replicate, List.getD_cons_succ]
        exact ih j
  exact this 9 i

/-- Witness for C2: nine identical accepted lights; the ninth candidate
`(8, 1)` passes the min-score test, is dropped by the cap, and indeed lands in
the rejected list. -/
theorem C2_cluster_cap_witness :
    ((8, FScore.val 1) ∈ scoredSorted nineLights [] [] unitScore ∧
     acceptLight (1 / 10) (8, FScore.val 1) = true ∧
     (8, FScore.val 1) ∉ (selectCore nineLights [] [] unitScore (1 / 10)).1) ∧
    (selectClusterLights nineLights [] [] unitScore (1 / 10)).1.length ≤ LUT_WIDTH ∧
    (8, FScore.val 1) ∈ (selectCore nineLights [] [] unitScore (1 / 10)).2 := by
  have hloop : scoredLightsLoop [] [] unitScore 0 nineLights =
      [(0, .val 1), (1, .val 1), (2, .val 1), (3, .val 1), (4, .val 1),
       (5, .val 1), (6, .val 1), (7, .val 1), (8, .val 1)] := by
    norm_num [nineLights, List.replicate, scoredLightsLoop, defaultLight, unitScore]
  have hss : scoredSorted nineLights [] [] unitScore =
      [(0, .val 1), (1, .val 1), (2, .val 1), (3, .val 1), (4, .val 1),
       (5, .val 1), (6, .val 1), (7, .val 1), (8, .val 1)] := by
    rw [scoredSorted, hloop]
    norm_num [normalizeScores, maxFiniteScore, normalizeEntry, sortBy, insertBy,
      scoreDescLt, FScore.flt]
  have hcore : selectCore nineLights [] [] unitScore (1 / 10) =
      ([(0, .val 1), (1, .val 1), (2, .val 1), (3, .val 1), (4, .val 1),
        (5, .val 1), (6, .val 1), (7, .val 1)], [(8, .val 1)]) := by
    rw [selectCore, hss]
    norm_num [List.partition_eq_filter_filter, acceptLight, FScore.fge, FScore.flt,
      LUT_WIDTH, sortBy, insertBy, namedKeyLt, lightAt_nineLights, defaultLight]
  have hmem : (8, FScore.val 1) ∈ scoredSorted nineLights [] [] unitScore := by
    rw [hss]; simp
  have hacc : acceptLight (1 / 10) (8, FScore.val 1) = true := by
    norm_num [acceptLight, FScore.fge, FScore.flt]
  have hnot : (8, FScore.val 1) ∉ (selectCore nineLights [] [] unitScore (1 / 10)).1 := by
    rw [hcore]; simp
  exact ⟨⟨hmem, hacc, hnot⟩, (C2_cluster_cap nineLights [] [] unitScore (1 / 10)).1,
    ((C2_cluster_cap nineLights [] [] unitScore (1 / 10)).2 _ hmem hacc hnot).1⟩

/-! ## Facts about scores and the scoring loop -/

theorem FScore.flt_asymm {a b : FScore} (h : FScore.flt a b = true) :
    FScore.flt b a = false := by
  cases a <;> cases b <;> simp_all [FScore.flt]
  linarith

theorem FScore.flt_neg_trans {a b c : FScore}
    (h1 : FScore.flt a b = false) (h2 : FScore.flt b c = false) :
    FScore.flt a c = false := by
  cases a <;> cases b <;> cases c <;> simp_all [FScore.flt]
  linarith

/-- Every entry of the scoring loop records the light at its index: the
sentinel appears exactly for forced includes, and finite scores are the
(positive) raw scores. -/
theorem scoredLoop_entries {excl force : List String} {score : LightDef → ℚ} :
    ∀ (lights : List LightDef) (i : Nat) (p : Nat × FScore),
      p ∈ scoredLightsLoop excl force score i lights →
      ∃ k, k < lights.length ∧ p.1 = i + k ∧
        ((p.2 = FScore.inf ↔
          (lights.getD k defaultLight).is_named_light = true ∧
            force.contains (lights.getD k defaultLight).debug_id = true) ∧
         (∀ q, p.2 = FScore.val q →
            q = score (lights.getD k defaultLight) ∧ 0 < q)) := by
  intro lights
  induction lights with
  | nil => intro i p hp; simp [scoredLightsLoop] at hp
  | cons light rest ih =>
    intro i p hp
    simp only [scoredLightsLoop] at hp
    by_cases hex : (light.is_named_light && excl.contains light.debug_id) = true
    · rw [if_pos hex] at hp
      rcases ih (i + 1) p hp with ⟨k, hk, hpk, hrest⟩
      exact ⟨k + 1, by simpa using hk, by omega, by simpa using hrest⟩
    · rw [if_neg hex] at hp
      by_cases hfo : (light.is_named_light && force.contains light.debug_id) = true
      · rw [if_pos hfo] at hp
        rcases List.mem_cons.mp hp with rfl | hp'
        · refine ⟨0, by simp, by simp, ?_⟩
          constructor
          · simp only [List.getD_cons_zero]
            rw [Bool.and_eq_true] at hfo
            constructor
            · intro _
              exact ⟨hfo.1, hfo.2⟩
            · intro _
              trivial
          · intro q hq; simp at hq
        · rcases ih (i + 1) p hp' with ⟨k, hk, hpk, hrest⟩
          exact ⟨k + 1, by simpa using hk, by omega, by simpa using hrest⟩
      · rw [if_neg hfo] at hp
        by_cases hpos : (0 : ℚ) < score light
        · rw [if_pos hpos] at hp
          rcases List.mem_cons.mp hp with rfl | hp'
          · refine ⟨0, by simp, by simp, ?_⟩
            constructor
            · simp only [List.getD_cons_zero]
              constructor
              · intro h; exact absurd h (by simp)
              · intro h
                exact absurd (Bool.and_eq_true _ _ |>.mpr ⟨h.1, h.2⟩) hfo
            · intro q hq
              simp only [List.getD_cons_zero]
              simp only [FScore.val.injEq] at hq
              exact ⟨hq.symm, hq ▸ hpos⟩
          · rcases ih (i + 1) p hp' with ⟨k, hk, hpk, hrest⟩
            exact ⟨k + 1, by simpa using hk, by omega, by simpa using hrest⟩
        · rw [if_neg hpos] at hp
          rcases ih (i + 1) p hp with ⟨k, hk, hpk, hrest⟩
          exact ⟨k + 1, by simpa using hk, by omega, by simpa using hrest⟩

/-- The `max_score` fold dominates every finite entry (and its seed). -/
theorem le_maxFiniteScore_aux :
    ∀ (l : List (Nat × FScore)) (acc : ℚ),
      acc ≤ l.foldl (fun acc p =>
        match p.2 with
        | .val q => Max.max acc q
        | .inf => acc) acc ∧
      ∀ p ∈ l, ∀ q, p.2 = FScore.val q →
        q ≤ l.foldl (fun acc p =>
          match p.2 with
          | .val q => Max.max acc q
          | .inf => acc) acc := by
  intro l
  induction l with
  | nil => intro acc; simp
  | cons p' rest ih =>
    intro acc
    simp only [List.foldl_cons]
    constructor
    · refine le_trans ?_ (ih _).1
      cases h : p'.2 <;> simp [h, le_max_left]
    · intro p hp q hq
      rcases List.mem_cons.mp hp with rfl | hp'
      · refine le_trans ?_ (ih _).1
        simp [hq, le_max_right]
      · exact (ih _).2 p hp' q hq

theorem le_maxFiniteScore {l : List (Nat × FScore)} {p : Nat × FScore} {q : ℚ}
    (hp : p ∈ l) (hq : p.2 = FScore.val q) : q ≤ maxFiniteScore l :=
  (le_maxFiniteScore_aux l 0).2 p hp q hq

/-- Entries after normalization: same index, sentinel preserved, finite scores
divided by a positive `max_score` (or untouched when it is not positive). -/
theorem normalize_entries {l : List (Nat × FScore)} {p : Nat × FScore}
    (hp : p ∈ normalizeScores l) :
    ∃ p0 ∈ l, p.1 = p0.1 ∧ (p.2 = FScore.inf ↔ p0.2 = FScore.inf) ∧
      ∀ q, p.2 = FScore.val q → ∃ q0, p0.2 = FScore.val q0 ∧
        ((0 < maxFiniteScore l ∧ q = q0 / maxFiniteScore l) ∨
         (¬ 0 < maxFiniteScore l ∧ q = q0)) := by
  unfold normalizeScores at hp
  by_cases hm : 0 < maxFiniteScore l
  · rw [if_pos hm] at hp
    rcases List.mem_map.mp hp with ⟨p0, hp0, rfl⟩
    refine ⟨p0, hp0, ?_, ?_, ?_⟩
    · cases h : p0.2 <;> simp [normalizeEntry, h]
    · cases h : p0.2 <;> simp [normalizeEntry, h]
    · intro q hq
      cases h : p0.2 with
      | val q0 =>
        simp only [normalizeEntry, h] at hq
        simp only [FScore.val.injEq] at hq
        exact ⟨q0, rfl, Or.inl ⟨hm, hq.symm⟩⟩
      | inf => simp [normalizeEntry, h] at hq
  · rw [if_neg hm] at hp
    exact ⟨p, hp, rfl, Iff.rfl, fun q hq => ⟨q, hq, Or.inr ⟨hm, rfl⟩⟩⟩

/-- Both output lists of `selectCore` draw their entries from the normalized
scored list. -/
theorem selectCore_subset {all : List LightDef} {excl force : List String}
    {score : LightDef → ℚ} {minScore : ℚ} {p : Nat × FScore}
    (hp : p ∈ (selectCore all excl force score minScore).1 ∨
          p ∈ (selectCore all excl force score minScore).2) :
    p ∈ normalizeScores (scoredLightsLoop excl force score 0 all) := by
  have hsub : ∀ x : Nat × FScore, x ∈ scoredSorted all excl force score →
      x ∈ normalizeScores (scoredLightsLoop excl force score 0 all) := by
    intro x hx
    exact mem_sortBy.mp hx
  simp only [selectCore, List.partition_eq_filter_filter] at hp
  by_cases hcap : LUT_WIDTH <
      ((scoredSorted all excl force score).filter (acceptLight minScore)).length
  · simp only [hcap, if_pos] at hp
    rcases hp with hp | hp
    · exact hsub _ (List.mem_of_mem_filter (List.take_subset _ _ (mem_sortBy.mp hp)))
    · rcases List.mem_append.mp hp with hp' | hp'
      · exact hsub _ (List.mem_of_mem_filter hp')
      · exact hsub _ (List.mem_of_mem_filter (List.drop_subset _ _ hp'))
  · simp only [hcap, if_neg, not_false_eq_true] at hp
    rcases hp with hp | hp
    · exact hsub _ (List.mem_of_mem_filter (mem_sortBy.mp hp))
    · exact hsub _ (List.mem_of_mem_filter hp)

theorem pairwise_true {α} (l : List α) : l.Pairwise (fun _ _ => True) := by
  induction l with
  | nil => simp
  | cons x xs ih => exact List.pairwise_cons.mpr ⟨fun _ _ => trivial, ih⟩

/-! ## Claim C3 -/

/-- C3 counterexample: an unnamed light scoring strictly higher than a named
one.  The accepted list of the produced cluster is not sorted by descending
score — the named-first re-sort moves the named light ahead of a strictly
higher-scoring unnamed one, so named lights do not precede unnamed lights
*only on ties*. -/
theorem C3_counterexample :
    ¬ (selectClusterLights cexLights [] [] cexScore (1 / 10)).1.Pairwise
        (fun a b => FScore.flt a.2 b.2 = false) := by
  have hloop : scoredLightsLoop [] [] cexScore 0 cexLights =
      [(0, .val 10), (1, .val 2)] := by
    norm_num [cexLights, scoredLightsLoop, cexScore, lightUnnamed, lightNamed,
      defaultLight]
  have hss : scoredSorted cexLights [] [] cexScore =
      [(0, .val 1), (1, .val (1 / 5))] := by
    rw [scoredSorted, hloop]
    norm_num [normalizeScores, maxFiniteScore, normalizeEntry, sortBy, insertBy,
      scoreDescLt, FScore.flt]
  have hsel : (selectClusterLights cexLights [] [] cexScore (1 / 10)).1 =
      [(lightNamed, FScore.val (1 / 5)), (lightUnnamed, FScore.val 1)] := by
    rw [selectClusterLights, selectCore, hss]
    norm_num [List.partition_eq_filter_filter, acceptLight, FScore.fge, FScore.flt,
      LUT_WIDTH, sortBy, insertBy, namedKeyLt, lightAt, cexLights, lightUnnamed,
      lightNamed, defaultLight]
  rw [hsel]
  intro h
  have h1 := (List.pairwise_cons.mp h).1 (lightUnnamed, FScore.val 1) (by simp)
  simp only [FScore.flt, decide_eq_false_iff_not] at h1
  exact h1 (by norm_num)

/-- C3 (amended).  In every cluster produced by the selection: all named
accepted lights precede all unnamed ones, and within each of the two groups
(in particular on every score tie) the order is by descending score; every
stored finite (non-forced) score, accepted or rejected, lies in `[0, 1]`; and
a stored light carries the sentinel maximal score exactly when it is a forced
include (named and listed in the force set). -/
theorem C3_amended (all : List LightDef) (excl force : List String)
    (score : LightDef → ℚ) (minScore : ℚ) :
    (selectClusterLights all excl force score minScore).1.Pairwise
      (fun a b => (a.1.is_named_light = false → b.1.is_named_light = false) ∧
        (a.1.is_named_light = b.1.is_named_light → FScore.flt a.2 b.2 = false)) ∧
    (∀ p, (p ∈ (selectClusterLights all excl force score minScore).1 ∨
           p ∈ (selectClusterLights all excl force score minScore).2) →
       (∀ q : ℚ, p.2 = FScore.val q → 0 ≤ q ∧ q ≤ 1) ∧
       (p.2 = FScore.inf ↔
         p.1.is_named_light = true ∧ force.contains p.1.debug_id = true)) := by
  have hasym1 : ∀ a b : Nat × FScore, scoreDescLt a b = true → scoreDescLt b a = false :=
    fun _ _ h => FScore.flt_asymm h
  have hntrans1 : ∀ a b c : Nat × FScore,
      scoreDescLt a b = false → scoreDescLt b c = false → scoreDescLt a c = false :=
    fun _ _ _ h1 h2 => FScore.flt_neg_trans h2 h1
  have hsorted : (scoredSorted all excl force score).Pairwise
      (fun a b => FScore.flt a.2 b.2 = false) := by
    have h := pairwise_sortBy hasym1 hntrans1
      (pairwise_true (normalizeScores (scoredLightsLoop excl force score 0 all)))
    exact h.imp (fun hab => hab.1)
  have hasym2 : ∀ a b : Nat × FScore,
      namedKeyLt all a b = true → namedKeyLt all b a = false := by
    intro a b h
    simp only [namedKeyLt, Bool.and_eq_true, Bool.not_eq_true'] at h
    simp [namedKeyLt, h.1, h.2]
  have hntrans2 : ∀ a b c : Nat × FScore,
      namedKeyLt all a b = false → namedKeyLt all b c = false →
      namedKeyLt all a c = false := by
    intro a b c h1 h2
    simp only [namedKeyLt] at h1 h2 ⊢
    cases hA : (lightAt all a.1).is_named_light
    · simp
    · cases hC : (lightAt all c.1).is_named_light
      · cases hB : (lightAt all b.1).is_named_light
        · simp_all
        · simp_all
      · simp
  have hcore1 : (selectCore all excl force score minScore).1.Pairwise
      (fun a b => namedKeyLt all b a = false ∧
        (namedKeyLt all a b = false → FScore.flt a.2 b.2 = false)) := by
    simp only [selectCore, List.partition_eq_filter_filter]
    by_cases hcap : LUT_WIDTH <
        ((scoredSorted all excl force score).filter (acceptLight minScore)).length
    · simp only [hcap, if_pos]
      exact pairwise_sortBy hasym2 hntrans2
        (((hsorted.filter _).sublist (List.take_sublist _ _)))
    · simp only [hcap, if_neg, not_false_eq_true]
      exact pairwise_sortBy hasym2 hntrans2 (hsorted.filter _)
  constructor
  · rw [selectClusterLights, List.pairwise_map]
    refine hcore1.imp ?_
    intro a b hab
    dsimp only
    constructor
    · intro hna
      have h1 := hab.1
      simp only [namedKeyLt, hna, Bool.not_false, Bool.and_true] at h1
      exact h1
    · intro heq
      refine hab.2 ?_
      simp only [namedKeyLt, heq]
      exact Bool.and_not_self _
  · intro p hp
    have hp' : ∃ pc, (pc ∈ (selectCore all excl force score minScore).1 ∨
        pc ∈ (selectCore all excl force score minScore).2) ∧
        p = (lightAt all pc.1, pc.2) := by
      simp only [selectClusterLights] at hp
      rcases hp with hp | hp
      · rcases List.mem_map.mp hp with ⟨pc, hpc, rfl⟩
        exact ⟨pc, Or.inl hpc, rfl⟩
      · rcases List.mem_map.mp hp with ⟨pc, hpc, rfl⟩
        exact ⟨pc, Or.inr hpc, rfl⟩
    rcases hp' with ⟨pc, hpc, rfl⟩
    have hnorm := selectCore_subset hpc
    rcases normalize_entries hnorm with ⟨p0, hp0, hidx, hiff, hval⟩
    rcases scoredLoop_entries all 0 p0 hp0 with ⟨k, hk, hk0, hliff, hlval⟩
    have hkk : pc.1 = k := by omega
    have hlight : lightAt all pc.1 = all.getD k defaultLight := by
      rw [hkk]; rfl
    constructor
    · intro q hq
      rcases hval q hq with ⟨q0, hq0, hcase⟩
      have h0 := hlval q0 hq0
      rcases hcase with ⟨hm, rfl⟩ | ⟨hm, rfl⟩
      · have hle : q0 ≤ maxFiniteScore (scoredLightsLoop excl force score 0 all) :=
          le_maxFiniteScore hp0 hq0
        exact ⟨le_of_lt (div_pos h0.2 hm), (div_le_one hm).mpr hle⟩
      · exact absurd (lt_of_lt_of_le h0.2 (le_maxFiniteScore hp0 hq0)) hm
    · show pc.2 = FScore.inf ↔ _
      rw [hlight] at *
      exact hiff.trans hliff

/-- Witness for the amended C3 at a concrete input: in the two-light
counterexample cluster the accepted list satisfies the amended ordering, the
named light's stored score `1/5` lies in `[0,1]`, and it is not the sentinel. -/
theorem C3_amended_witness :
    ((lightNamed, FScore.val (1 / 5)) ∈
        (selectClusterLights cexLights [] [] cexScore (1 / 10)).1 ∧
     (lightNamed, FScore.val (1 / 5)).2 = FScore.val (1 / 5)) ∧
    ((selectClusterLights cexLights [] [] cexScore (1 / 10)).1.Pairwise
      (fun a b => (a.1.is_named_light = false → b.1.is_named_light = false) ∧
        (a.1.is_named_light = b.1.is_named_light → FScore.flt a.2 b.2 = false)) ∧
     (0 ≤ (1 : ℚ) / 5 ∧ (1 : ℚ) / 5 ≤ 1)) := by
  have hloop : scoredLightsLoop [] [] cexScore 0 cexLights =
      [(0, .val 10), (1, .val 2)] := by
    norm_num [cexLights, scoredLightsLoop, cexScore, lightUnnamed, lightNamed,
      defaultLight]
  have hss : scoredSorted cexLights [] [] cexScore =
      [(0, .val 1), (1, .val (1 / 5))] := by
    rw [scoredSorted, hloop]
    norm_num [normalizeScores, maxFiniteScore, normalizeEntry, sortBy, insertBy,
      scoreDescLt, FScore.flt]
  have hsel : (selectClusterLights cexLights [] [] cexScore (1 / 10)).1 =
      [(lightNamed, FScore.val (1 / 5)), (lightUnnamed, FScore.val 1)] := by
    rw [selectClusterLights, selectCore, hss]
    norm_num [List.partition_eq_filter_filter, acceptLight, FScore.fge, FScore.flt,
      LUT_WIDTH, sortBy, insertBy, namedKeyLt, lightAt, cexLights, lightUnnamed,
      lightNamed, defaultLight]
  have hmem : (lightNamed, FScore.val (1 / 5)) ∈
      (selectClusterLights cexLights [] [] cexScore (1 / 10)).1 := by
    rw [hsel]; simp
  refine ⟨⟨hmem, rfl⟩, (C3_amended cexLights [] [] cexScore (1 / 10)).1, ?_⟩
  exact ((C3_amended cexLights [] [] cexScore (1 / 10)).2
    (lightNamed, FScore.val (1 / 5)) (Or.inl hmem)).1 (1 / 5) rfl

/-! ## Claims C4 and C5: the light extractor -/

theorem fclamp_bounds (r : ℚ) :
    64 ≤ fclamp r 64 65000 ∧ fclamp r 64 65000 ≤ 65000 := by
  unfold fclamp
  split_ifs with h1 h2
  · norm_num
  · norm_num
  · push_neg at h1 h2
    exact ⟨h1, h2⟩

theorem buildLight_range_bounds (trig : TrigFun) (vmf : VmfFile) (ent : Entity)
    (cn : String) :
    64 ≤ (buildLight trig vmf ent cn).range ∧
      (buildLight trig vmf ent cn).range ≤ 65000 := by
  obtain ⟨r, hr⟩ : ∃ r, (buildLight trig vmf ent cn).range = fclamp r 64 65000 := by
    simp only [buildLight]
    exact ⟨_, rfl⟩
  rw [hr]
  exact fclamp_bounds r

theorem processEntity_some {trig : TrigFun} {vmf : VmfFile} {ent : Entity}
    {l : LightDef} (h : processEntity trig vmf ent = some l) :
    l = buildLight trig vmf ent ((ent.classname).getD "") := by
  unfold processEntity at h
  dsimp only at h
  split_ifs at h with h1 h2
  · injection h with h
    exact h.symm

theorem extractLoop_mem {trig : TrigFun} {vmf : VmfFile} {l : LightDef} :
    ∀ ents, l ∈ extractLoop trig vmf ents →
      ∃ ent, processEntity trig vmf ent = some l := by
  intro ents
  induction ents with
  | nil => intro h; simp [extractLoop] at h
  | cons e rest ih =>
    intro h
    simp only [extractLoop] at h
    cases hpe : processEntity trig vmf e with
    | some l' =>
      simp only [hpe] at h
      rcases List.mem_cons.mp h with rfl | h'
      · exact ⟨e, hpe⟩
      · exact ih h'
    | none =>
      simp only [hpe] at h
      exact ih h

/-- C4.  Every `LightDef` returned by `extract_lights` has
`64 ≤ range ≤ 65000`, whatever the input map, falloff model or
`pbr_range_override`: the final clamp applies to all paths. -/
theorem C4_range_clamp (trig : TrigFun) (vmf : VmfFile) (l : LightDef)
    (hl : l ∈ extract_lights trig vmf) : 64 ≤ l.range ∧ l.range ≤ 65000 := by
  unfold extract_lights at hl
  obtain ⟨ent, hpe⟩ := extractLoop_mem vmf.entities hl
  rw [processEntity_some hpe]
  exact buildLight_range_bounds trig vmf ent _

/-- Witness for C4: a concrete map with one enabled `light` entity; the
extracted light's range is within the clamp bounds. -/
theorem C4_range_clamp_witness :
    (extract_lights trigZero vmfLightOn).headI ∈ extract_lights trigZero vmfLightOn ∧
    64 ≤ (extract_lights trigZero vmfLightOn).headI.range ∧
    (extract_lights trigZero vmfLightOn).headI.range ≤ 65000 := by
  have hx : extract_lights trigZero vmfLightOn =
      [buildLight trigZero vmfLightOn entLightOn "light"] := rfl
  have hmem : (extract_lights trigZero vmfLightOn).headI ∈
      extract_lights trigZero vmfLightOn := by
    rw [hx]
    simp
  exact ⟨hmem, C4_range_clamp trigZero vmfLightOn _ hmem⟩

/-- C5 counterexample: a `light` entity whose `pbr_enabled` is `"2"` — not the
string `"1"` — is nevertheless extracted (the source only skips the value
`"0"`), so the claim that every such entity is skipped is false. -/
theorem C5_counterexample :
    (vmfLightTwo.entities.getD 0 defaultEntity).classname = some "light" ∧
    (vmfLightTwo.entities.getD 0 defaultEntity).get "pbr_enabled" = some "2" ∧
    (extract_lights trigZero vmfLightTwo).length = 1 := by
  refine ⟨rfl, rfl, ?_⟩
  have hx : extract_lights trigZero vmfLightTwo =
      [buildLight trigZero vmfLightTwo entLightTwo "light"] := rfl
  rw [hx]
  rfl

/-- C5 (amended).  A `light`/`light_spot` entity is skipped exactly when its
`pbr_enabled` key, defaulted to `"0"` when absent, equals `"0"`; any other
value (not only `"1"`) lets it be extracted; `func_ggx_area` entities are
extracted regardless of `pbr_enabled`; and a map whose entities are all
disabled lights yields no `LightDef` at all. -/
theorem C5_pbr_enabled_gate :
    (∀ (trig : TrigFun) (vmf : VmfFile) (ent : Entity),
       ((ent.classname).getD "" = "light" ∨ (ent.classname).getD "" = "light_spot") →
       (ent.get "pbr_enabled").getD "0" = "0" →
       processEntity trig vmf ent = none) ∧
    (∀ (trig : TrigFun) (vmf : VmfFile) (ent : Entity),
       ((ent.classname).getD "" = "light" ∨ (ent.classname).getD "" = "light_spot") →
       (ent.get "pbr_enabled").getD "0" ≠ "0" →
       processEntity trig vmf ent =
         some (buildLight trig vmf ent ((ent.classname).getD ""))) ∧
    (∀ (trig : TrigFun) (vmf : VmfFile) (ent : Entity),
       (ent.classname).getD "" = "func_ggx_area" →
       processEntity trig vmf ent = some (buildLight trig vmf ent "func_ggx_area")) ∧
    (∀ (trig : TrigFun) (vmf : VmfFile),
       (∀ ent ∈ vmf.entities,
         ((ent.classname).getD "" = "light" ∨ (ent.classname).getD "" = "light_spot") ∧
           (ent.get "pbr_enabled").getD "0" = "0") →
       extract_lights trig vmf = []) := by
  have hskip : ∀ (trig : TrigFun) (vmf : VmfFile) (ent : Entity),
      ((ent.classname).getD "" = "light" ∨ (ent.classname).getD "" = "light_spot") →
      (ent.get "pbr_enabled").getD "0" = "0" →
      processEntity trig vmf ent = none := by
    intro trig vmf ent hcls hpe
    unfold processEntity
    rcases hcls with h | h <;> rw [h] <;> simp [hpe]
  refine ⟨hskip, ?_, ?_, ?_⟩
  · intro trig vmf ent hcls hpe
    unfold processEntity
    rcases hcls with h | h <;> rw [h] <;> simp [hpe]
  · intro trig vmf ent hcls
    unfold processEntity
    rw [hcls]
    simp
  · intro trig vmf hall
    unfold extract_lights
    have : ∀ ents, (∀ ent ∈ ents,
        ((ent.classname).getD "" = "light" ∨ (ent.classname).getD "" = "light_spot") ∧
          (ent.get "pbr_enabled").getD "0" = "0") →
        extractLoop trig vmf ents = [] := by
      intro ents
      induction ents with
      | nil => intro _; simp [extractLoop]
      | cons e rest ih =>
        intro h
        have he := h e (List.mem_cons_self _ _)
        simp only [extractLoop, hskip trig vmf e he.1 he.2]
        exact ih (fun ent hent => h ent (List.mem_cons_of_mem _ hent))
    exact this vmf.entities hall

/-- Witness for the amended C5 at concrete inputs: a `light` without
`pbr_enabled` is skipped, a `light` with `pbr_enabled = "2"` is extracted, a
`func_ggx_area` is extracted, and a map of disabled lights yields nothing. -/
theorem C5_pbr_enabled_gate_witness :
    processEntity trigZero vmfMixed entLightOff = none ∧
    processEntity trigZero vmfMixed entLightTwo =
      some (buildLight trigZero vmfMixed entLightTwo "light") ∧
    processEntity trigZero vmfMixed entArea =
      some (buildLight trigZero vmfMixed entArea "func_ggx_area") ∧
    extract_lights trigZero vmfOff = [] := by
  refine ⟨?_, ?_, ?_, ?_⟩
  · exact (C5_pbr_enabled_gate).1 trigZero vmfMixed entLightOff (Or.inl rfl) rfl
  · exact (C5_pbr_enabled_gate).2.1 trigZero vmfMixed entLightTwo (Or.inl rfl)
      (by decide)
  · exact (C5_pbr_enabled_gate).2.2.1 trigZero vmfMixed entArea rfl
  · exact (C5_pbr_enabled_gate).2.2.2 trigZero vmfOff
      (by intro ent hent
          simp only [vmfOff] at hent
          rcases List.mem_singleton.mp hent with rfl
          exact ⟨Or.inl rfl, rfl⟩)

/-! ## Claim C1: occlusion against the test cube -/

theorem nat_sqrt_400 : Nat.sqrt 400 = 20 := by
  rw [show (400 : ℕ) = 20 * 20 by norm_num]
  exact Nat.sqrt_eq 20

theorem nat_sqrt_100 : Nat.sqrt 100 = 10 := by
  rw [show (100 : ℕ) = 10 * 10 by norm_num]
  exact Nat.sqrt_eq 10

theorem ratSqrt_400 : ratSqrt 400 = 20 := by
  unfold ratSqrt
  norm_num [Rat.num_ofNat, Rat.den_ofNat]
  rw [show ((400 : ℤ).toNat) = 400 from rfl, nat_sqrt_400]
  norm_num

theorem ratSqrt_100 : ratSqrt 100 = 10 := by
  unfold ratSqrt
  norm_num [Rat.num_ofNat, Rat.den_ofNat]
  rw [show ((100 : ℤ).toNat) = 100 from rfl, nat_sqrt_100]
  norm_num

theorem default_material_no_tools : containsStr (lowerStr "default") "tools" = false := by
  decide

theorem default_material_no_glass : containsStr (lowerStr "default") "glass" = false := by
  decide

theorem testCube_bounds : testCube._bounds =
    ⟨⟨-10, -10, -10⟩, ⟨10, 10, 10⟩, ⟨0, 0, 0⟩⟩ := by
  norm_num [testCube, AABB.new, AABB.extend, F32MAX, min_def, max_def]

/-- C1.  For the world consisting of exactly the six-plane axis-aligned cube
brush from `-10` to `10` (outward unit normals, `dist = -10` on every face),
`is_occluded` returns `true` for the segment from the inside point `(0,0,0)`
to `(20,0,0)`, and `false` for the segment starting on the face at
`(-10,0,0)` and heading away to `(-20,0,0)`. -/
theorem C1_is_occluded_cube :
    is_occluded ⟨0, 0, 0⟩ ⟨20, 0, 0⟩ [testCube] = true ∧
    is_occluded ⟨-10, 0, 0⟩ ⟨-20, 0, 0⟩ [testCube] = false := by
  constructor
  · have h1 : is_occluded ⟨0, 0, 0⟩ ⟨20, 0, 0⟩ [testCube] =
        isOccludedLoop ⟨0, 0, 0⟩ ⟨1, 0, 0⟩ 20 [testCube] := by
      unfold is_occluded
      norm_num [sub, dot, ratSqrt_400, EPSILON]
    have hrab : ray_aabb_intersect ⟨0, 0, 0⟩ ⟨1, 0, 0⟩ 20 testCube._bounds = true := by
      rw [testCube_bounds]
      norm_num [ray_aabb_intersect, rayAabbAxes, EPSILON, abs_zero, abs_one,
        min_def, max_def]
    have hib : intersect_brush ⟨0, 0, 0⟩ ⟨1, 0, 0⟩ 20 testCube = some (-10, 1) := by
      norm_num [intersect_brush, intersectPlanes, testCube, Plane.new, dot,
        default_material_no_tools, EPSILON, F32MAX, abs_zero, abs_one, abs_neg]
    rw [h1]
    simp only [isOccludedLoop, hrab, Bool.not_true, hib]
    norm_num [Plane.new, testCube, default_material_no_glass]
  · have h1 : is_occluded ⟨-10, 0, 0⟩ ⟨-20, 0, 0⟩ [testCube] =
        isOccludedLoop ⟨-10, 0, 0⟩ ⟨-1, 0, 0⟩ 10 [testCube] := by
      unfold is_occluded
      norm_num [sub, dot, ratSqrt_100, EPSILON]
    have hib : intersect_brush ⟨-10, 0, 0⟩ ⟨-1, 0, 0⟩ 10 testCube = none := by
      norm_num [intersect_brush, intersectPlanes, testCube, Plane.new, dot,
        default_material_no_tools, EPSILON, F32MAX, abs_zero, abs_one, abs_neg]
    rw [h1]
    simp only [isOccludedLoop, hib]
    cases hr : ray_aabb_intersect ⟨-10, 0, 0⟩ ⟨-1, 0, 0⟩ 10 testCube._bounds <;>
      simp [isOccludedLoop]

end VmfPbr
